import Mathlib

/-!
Shallow embedding of the MLB take-home fetch-orchestration engine.

Source files embedded here:
- `src/mlb-client/src/types.rs`: the schedule document types and
  `Schedule::into_item_metadata_data`.
- `src/take-home/src/networking.rs`: `NetworkState` and `startup_procedure`.
- `src/take-home/src/graphics.rs` and `src/take-home/src/main.rs`: the
  graphics-state consumer (`GfxState::init`, `GfxState::drain_images`) and the
  per-frame processing of the shared `NetworkState` in the main loop.

`startup_procedure` is async: it performs one schedule fetch, fans out one
download task per extracted item (`future::join_all`), each task conditionally
pushing one entry into the shared state under a lock, and finally performs the
terminal transition. The embedding makes the external world explicit as an
environment (`Env`) of oracles for the schedule fetch, image downloads and
file writes, and makes the interleaving of the tasks' single locked state
writes explicit as a list `order` of task indices. The run is rendered as the
trace of shared-state values after each locked write.
-/

/-- Rust `Cut` from `src/mlb-client/src/types.rs`. -/
structure Cut where
  src : String
deriving DecidableEq, Repr

/-- Rust `Photo` from `src/mlb-client/src/types.rs`; the Rust `HashMap<String, Cut>`
is embedded as an association list. -/
structure Photo where
  cuts : List (String × Cut)
deriving DecidableEq, Repr

/-- Rust `Mlb` from `src/mlb-client/src/types.rs`. -/
structure Mlb where
  headline : String
  subhead : String
  blurb : String
  photo : Photo
deriving DecidableEq, Repr

/-- Rust `Recap` from `src/mlb-client/src/types.rs`. -/
structure Recap where
  mlb : Mlb
deriving DecidableEq, Repr

/-- Rust `Editorial` from `src/mlb-client/src/types.rs`. -/
structure Editorial where
  recap : Recap
deriving DecidableEq, Repr

/-- Rust `Content` from `src/mlb-client/src/types.rs`. -/
structure Content where
  editorial : Option Editorial
deriving DecidableEq, Repr

/-- Rust `Game` from `src/mlb-client/src/types.rs`; `game_pk : u32` is embedded as
`Nat` (no arithmetic is performed on it). -/
structure Game where
  game_pk : Nat
  game_date : String
  content : Content
deriving DecidableEq, Repr

/-- Rust `DateItem` from `src/mlb-client/src/types.rs`: one date bucket. -/
structure DateItem where
  games : List Game
deriving DecidableEq, Repr

/-- Rust `Schedule` from `src/mlb-client/src/types.rs`: the schedule document. -/
structure Schedule where
  dates : List DateItem
deriving DecidableEq, Repr

/-- Rust `ItemMetadata` from `src/mlb-client/src/types.rs`; the Rust
`HashMap<String, String>` of photos is embedded as an association list. -/
structure ItemMetadata where
  date : String
  id : Nat
  headline : String
  subhead : String
  blurb : String
  photos : List (String × String)
deriving DecidableEq, Repr

/-- The body of the `filter_map` closure inside
`Schedule::into_item_metadata_data`: a game with an editorial yields an
`ItemMetadata`; a game without one is dropped. -/
def Game.toItemMetadata (game : Game) : Option ItemMetadata :=
  match game.content.editorial with
  | some editorial =>
    let mlb := editorial.recap.mlb
    some { id := game.game_pk
           date := game.game_date
           headline := mlb.headline
           subhead := mlb.subhead
           blurb := mlb.blurb
           photos := mlb.photo.cuts.map fun rc => (rc.1, rc.2.src) }
  | none => none

/-- Rust `Schedule::into_item_metadata_data` from `src/mlb-client/src/types.rs`:
one inner list per date bucket, keeping only games with editorials. -/
def Schedule.into_item_metadata_data (s : Schedule) : List (List ItemMetadata) :=
  s.dates.map fun item => item.games.filterMap Game.toItemMetadata

/-- Rust `NetworkState` from `src/take-home/src/networking.rs`. The Rust
`Vec<(usize, String)>` of per-index thumbnail paths is a `List (Nat × String)`. -/
inductive NetworkState where
  | FetchingJson : NetworkState
  | FetchingImages : List ItemMetadata → List (Nat × String) → NetworkState
  | Error : String → NetworkState
  | Done : List ItemMetadata → List (Nat × String) → NetworkState
deriving DecidableEq, Repr

/-- Rust `THUMBNAIL_PATH` from `src/take-home/src/networking.rs`. -/
def THUMBNAIL_PATH : String := "./assets/thumbnails/"

/-- The file path built by `format!("{}{}.png", THUMBNAIL_PATH, id)` in
`startup_procedure`. -/
def thumbFilePath (id : Nat) : String :=
  THUMBNAIL_PATH ++ toString id ++ ".png"

/-- Oracles for the external world consumed by `startup_procedure`:
the result of `client.get_schedule_via_date` (error already rendered to a
string, as the code does with `err.to_string()`), the result of
`client.get_image` per URL, and the success of `tokio::fs::write` per path
and byte content. -/
structure Env where
  schedule : Except String Schedule
  get_image : String → Except String (List Nat)
  write_file : String → List Nat → Bool

/-- The pure part of one download task of `startup_procedure`, for task index
`i` over the pair `(id, url)` taken from `image_urls`: the entry it pushes
into the shared state, if any. `none` url (resolution key absent), a failed
`get_image`, or a failed `tokio::fs::write` all produce no entry; only a
fully successful download and write produces `(i, file_path)`. -/
def taskInsertion (env : Env) (i : Nat) (id : Nat) (url : Option String) :
    Option (Nat × String) :=
  match url with
  | none => none
  | some u =>
    match env.get_image u with
    | Except.error _ => none
    | Except.ok raw =>
      if env.write_file (thumbFilePath id) raw then some (i, thumbFilePath id)
      else none

/-- The locked write performed by a download task:
`if let NetworkState::FetchingImages(_, image_paths) = &mut *state.lock()
\x7b image_paths.push((i, file_path)) \x7d`. Any other variant is left
unchanged. -/
def recordOutcome (st : NetworkState) (entry : Nat × String) : NetworkState :=
  match st with
  | NetworkState.FetchingImages items image_paths =>
      NetworkState.FetchingImages items (image_paths ++ [entry])
  | other => other

/-- Rust `image_urls` from `startup_procedure`: per item, its id paired with the
lookup of the canonical resolution key in its photos
(`item_metadata.photos.get("684x385").cloned()`). -/
def image_urls_of (item_metadatas : List ItemMetadata) : List (Nat × Option String) :=
  item_metadatas.map fun item_metadata =>
    (item_metadata.id, List.lookup "684x385" item_metadata.photos)

/-- The entry that task `i` of a run over `urls` contributes, if any. -/
def taskResult (env : Env) (urls : List (Nat × Option String)) (i : Nat) :
    Option (Nat × String) :=
  match urls.get? i with
  | none => none
  | some (id, u) => taskInsertion env i id u

/-- The effect of task `i` on the shared state at the moment of its single
locked write: the task computes its entry independently of the state, then
pushes it only if the state is still in `FetchingImages`. -/
def applyTask (env : Env) (urls : List (Nat × Option String))
    (st : NetworkState) (i : Nat) : NetworkState :=
  match taskResult env urls i with
  | none => st
  | some entry => recordOutcome st entry

/-- The trace of shared-state values during the fan-out: the state before any
task write, then after each task write, in the interleaving `order`. -/
def taskTrace (env : Env) (urls : List (Nat × Option String))
    (st : NetworkState) (order : List Nat) : List NetworkState :=
  List.scanl (applyTask env urls) st order

/-- The terminal block of `startup_procedure`: under the lock, a state still
in `FetchingImages` has its vectors moved into `Done`; any other variant is
replaced by `Error("unexpected state transition")`. -/
def terminalTransition (st : NetworkState) : NetworkState :=
  match st with
  | NetworkState.FetchingImages item_metadata image_paths =>
      NetworkState.Done item_metadata image_paths
  | _ => NetworkState.Error "unexpected state transition"

/-- Rust `startup_procedure` from `src/take-home/src/networking.rs`, rendered as
the trace of shared-state values of one run. The state starts as
`FetchingJson` (set by the caller in `main`). A failed schedule fetch writes
`Error`. Otherwise `item_metadata_data.pop()` takes the LAST date bucket
(`Vec::pop` removes from the back); `None` (no buckets) writes
`Error("Missing item_metadata data")`. Otherwise the state becomes
`FetchingImages(item_metadatas, [])`, the download tasks' locked writes land
in the interleaving `order`, and after `join_all` the terminal block runs. -/
def startup_procedure (env : Env) (order : List Nat) : List NetworkState :=
  NetworkState.FetchingJson ::
    match env.schedule with
    | Except.error err => [NetworkState.Error err]
    | Except.ok schedule =>
      match (Schedule.into_item_metadata_data schedule).getLast? with
      | none => [NetworkState.Error "Missing item_metadata data"]
      | some item_metadatas =>
        let urls := image_urls_of item_metadatas
        let st0 := NetworkState.FetchingImages item_metadatas []
        taskTrace env urls st0 order ++
          [terminalTransition (order.foldl (applyTask env urls) st0)]

/-- External-effect events of one run: creating the thumbnail directory,
one `client.get_image` call, one `tokio::fs::write` attempt (with its
success flag). -/
inductive NetEvent where
  | mkDir : NetEvent
  | netCall : String → NetEvent
  | fsWrite : String → Bool → NetEvent
deriving DecidableEq, Repr

/-- The external-effect events of one download task over `(id, url)` from
`image_urls`: nothing at all when the resolution key was absent; otherwise the
`get_image` call, followed by the `tokio::fs::write` attempt when the download
succeeded. -/
def taskEvents (env : Env) (id : Nat) (url : Option String) : List NetEvent :=
  match url with
  | none => []
  | some u =>
    NetEvent.netCall u ::
      match env.get_image u with
      | Except.error _ => []
      | Except.ok raw =>
        [NetEvent.fsWrite (thumbFilePath id) (env.write_file (thumbFilePath id) raw)]

/-- The events of the whole fan-out phase, tasks serialized in `order`. -/
def taskPhaseEvents (env : Env) (urls : List (Nat × Option String))
    (order : List Nat) : List NetEvent :=
  (order.map fun i =>
    match urls.get? i with
    | none => []
    | some (id, u) => taskEvents env id u).flatten

/-- The preamble of `startup_procedure`:
`if !Path::new(THUMBNAIL_PATH).exists() \x7b fs::create_dir_all(THUMBNAIL_PATH).unwrap() \x7d`. -/
def ensureDirEvents (dirExists : Bool) : List NetEvent :=
  if dirExists then [] else [NetEvent.mkDir]

/-- Whether the thumbnail directory exists after the preamble ran, given
whether it existed before. -/
def ensureThumbnailDir (dirExists : Bool) : Bool :=
  if dirExists then dirExists else true

/-- External-effect event trace of one run of `startup_procedure`: the
directory preamble first, then (when the schedule fetch and extraction
succeed) the download tasks' calls and writes. -/
def startup_events (dirExists : Bool) (env : Env) (order : List Nat) :
    List NetEvent :=
  ensureDirEvents dirExists ++
    match env.schedule with
    | Except.error _ => []
    | Except.ok schedule =>
      match (Schedule.into_item_metadata_data schedule).getLast? with
      | none => []
      | some item_metadatas =>
        taskPhaseEvents env (image_urls_of item_metadatas) order

/-- The URLs of the `get_image` calls among a list of events. -/
def netCallsOf (events : List NetEvent) : List String :=
  events.filterMap fun e =>
    match e with
    | NetEvent.netCall u => some u
    | _ => none

/-- Rust `GfxState` from `src/take-home/src/graphics.rs`. SDL texture handles are
not representable; the `textures : Option<Vec<Texture>>` field is embedded as
one optional slot per game holding the path of the image texture loaded into
it (`none` = the initial placeholder texture). The borrowed
`texture_creator` is omitted. -/
structure GfxState where
  window_width : Nat
  window_height : Nat
  item_width : Nat
  item_height : Nat
  item_padding : Nat
  selection : Nat
  shift : Int
  n_games : Nat
  textures : Option (List (Option String))
  item_metadata : List ItemMetadata
deriving DecidableEq, Repr

/-- Rust `GfxState::new` from `src/take-home/src/graphics.rs`. -/
def GfxState.new (window_width window_height : Nat) : GfxState :=
  { window_width := window_width
    window_height := window_height
    item_padding := window_width / 40
    item_width := window_width / 8
    item_height := window_width / 8 * 9 / 16
    selection := 0
    shift := 0
    textures := none
    n_games := 0
    item_metadata := [] }

/-- Rust `GfxState::init` from `src/take-home/src/graphics.rs`. It receives
`&mut Vec<ItemMetadata>` — the items vector INSIDE the locked `NetworkState`.
When textures are not yet initialized it allocates one placeholder texture per
game and `append`s the state's items into its own vector, which drains the
source vector. Returns the updated graphics state and the new contents of the
state's items vector. -/
def GfxState.init (g : GfxState) (item_metadatas : List ItemMetadata) :
    GfxState × List ItemMetadata :=
  if g.textures.isSome then (g, item_metadatas)
  else
    ({ g with
        textures := some (List.replicate item_metadatas.length none)
        n_games := item_metadatas.length
        item_metadata := g.item_metadata ++ item_metadatas },
      [])

/-- Rust `GfxState::drain_images` from `src/take-home/src/graphics.rs`. It receives
`&mut Vec<(usize, String)>` — the `image_paths` vector INSIDE the locked
`NetworkState` — and `drain(..)`s every entry out of it, loading each path
into the texture slot at its index. Returns the updated graphics state and
the new contents of the state's vector. -/
def GfxState.drain_images (g : GfxState) (image_paths : List (Nat × String)) :
    GfxState × List (Nat × String) :=
  ({ g with
      textures := some (image_paths.foldl
        (fun ts e => ts.set e.1 (some e.2)) (g.textures.getD [])) },
    [])

/-- The per-frame processing of the shared `NetworkState` in the main loop of
`src/take-home/src/main.rs` (the `match &mut *network_state.lock()` block,
while `networking_complete` is false): in `FetchingImages` and `Done` the UI
calls `gfx_state.init` and `gfx_state.drain_images` on the vectors held
inside the locked state. Returns the updated graphics state and the shared
state as the lock releases it. -/
def uiFrameNetwork (g : GfxState) (st : NetworkState) : GfxState × NetworkState :=
  match st with
  | NetworkState.Error e => (g, NetworkState.Error e)
  | NetworkState.FetchingJson => (g, NetworkState.FetchingJson)
  | NetworkState.FetchingImages item_metadatas image_paths =>
      let gi := g.init item_metadatas
      let gd := gi.1.drain_images image_paths
      (gd.1, NetworkState.FetchingImages gi.2 gd.2)
  | NetworkState.Done item_metadatas image_paths =>
      let gi := g.init item_metadatas
      let gd := gi.1.drain_images image_paths
      (gd.1, NetworkState.Done gi.2 gd.2)

/-! Concrete schedule documents and environments used to evaluate the
embedding on explicit inputs. -/

/-- Helper building a game that carries an editorial with the given texts and
photo cuts. -/
def mkEditorialGame (id : Nat) (date headline subhead blurb : String)
    (cuts : List (String × Cut)) : Game :=
  Game.mk id date
    (Content.mk (some (Editorial.mk (Recap.mk
      (Mlb.mk headline subhead blurb (Photo.mk cuts))))))

/-- A game (id 7) with an editorial whose photos hold the canonical
resolution key. -/
def gameOk : Game :=
  mkEditorialGame 7 "2018-06-10" "h" "s" "b" [("684x385", Cut.mk "http://img/7")]

/-- The extraction of `gameOk`. -/
def itemOk : ItemMetadata :=
  { date := "2018-06-10", id := 7, headline := "h", subhead := "s", blurb := "b"
    photos := [("684x385", "http://img/7")] }

/-- A one-bucket schedule containing only `gameOk`. -/
def schedOk : Schedule := { dates := [{ games := [gameOk] }] }

/-- Environment where everything succeeds for `schedOk`. -/
def envOk : Env :=
  { schedule := Except.ok schedOk
    get_image := fun _ => Except.ok [1, 2, 3]
    write_file := fun _ _ => true }

/-- A game (id 3) with an editorial whose photos LACK the canonical
resolution key. -/
def gameNoKey : Game :=
  mkEditorialGame 3 "2018-06-10" "h3" "s3" "b3" [("1x1", Cut.mk "http://img/tiny")]

/-- The extraction of `gameNoKey`. -/
def itemNoKey : ItemMetadata :=
  { date := "2018-06-10", id := 3, headline := "h3", subhead := "s3", blurb := "b3"
    photos := [("1x1", "http://img/tiny")] }

/-- A one-bucket schedule containing only `gameNoKey`. -/
def schedNoKey : Schedule := { dates := [{ games := [gameNoKey] }] }

/-- Environment for `schedNoKey`; downloads and writes would succeed, but the
single item has no URL at the canonical resolution key. -/
def envNoKey : Env :=
  { schedule := Except.ok schedNoKey
    get_image := fun _ => Except.ok [1, 2, 3]
    write_file := fun _ _ => true }

/-- Environment for `schedOk` where the file write fails. -/
def envWriteFail : Env :=
  { schedule := Except.ok schedOk
    get_image := fun _ => Except.ok [1, 2, 3]
    write_file := fun _ _ => false }

/-- A game (id 1) with an editorial, in the FIRST bucket of `schedTwo`. -/
def gameA : Game :=
  mkEditorialGame 1 "2018-06-10" "hA" "sA" "bA" []

/-- A game (id 2) with an editorial, in the SECOND bucket of `schedTwo`. -/
def gameB : Game :=
  mkEditorialGame 2 "2018-06-11" "hB" "sB" "bB" []

/-- The extraction of `gameA`. -/
def itemA : ItemMetadata :=
  { date := "2018-06-10", id := 1, headline := "hA", subhead := "sA", blurb := "bA"
    photos := [] }

/-- The extraction of `gameB`. -/
def itemB : ItemMetadata :=
  { date := "2018-06-11", id := 2, headline := "hB", subhead := "sB", blurb := "bB"
    photos := [] }

/-- A schedule document with TWO date buckets: `gameA` then `gameB`. -/
def schedTwo : Schedule :=
  { dates := [{ games := [gameA] }, { games := [gameB] }] }

/-- Environment delivering `schedTwo`. -/
def envTwo : Env :=
  { schedule := Except.ok schedTwo
    get_image := fun _ => Except.ok [1]
    write_file := fun _ _ => true }

/-- A schedule document with an empty date-bucket list. -/
def schedNoBuckets : Schedule := { dates := [] }

/-- Environment delivering `schedNoBuckets`. -/
def envNoBuckets : Env :=
  { schedule := Except.ok schedNoBuckets
    get_image := fun _ => Except.ok [1]
    write_file := fun _ _ => true }

/-- A game without an editorial: filtered out by the extractor. -/
def gamePlain : Game :=
  { game_pk := 9, game_date := "2018-06-10", content := { editorial := none } }

/-- A one-bucket schedule whose only game lacks an editorial, so extraction
yields zero items. -/
def schedZeroItems : Schedule := { dates := [{ games := [gamePlain] }] }

/-- Environment delivering `schedZeroItems`. -/
def envZeroItems : Env :=
  { schedule := Except.ok schedZeroItems
    get_image := fun _ => Except.ok [1]
    write_file := fun _ _ => true }

/-! Helper lemmas about the run trace. -/

/-- A task's write on a state in `FetchingImages` keeps the items and appends
at most one entry to the image paths. -/
theorem applyTask_fetching_append (env : Env) (urls : List (Nat × Option String))
    (items : List ItemMetadata) (paths : List (Nat × String)) (i : Nat) :
    ∃ t, applyTask env urls (NetworkState.FetchingImages items paths) i
      = NetworkState.FetchingImages items (paths ++ t) := by
  unfold applyTask
  cases taskResult env urls i with
  | none => exact ⟨[], by simp⟩
  | some entry => exact ⟨[entry], rfl⟩

/-- Folding all task writes over a `FetchingImages` state collects exactly the
successful tasks' entries, in write order, after the existing entries. -/
theorem foldl_applyTask (env : Env) (urls : List (Nat × Option String))
    (order : List Nat) (items : List ItemMetadata) (paths : List (Nat × String)) :
    order.foldl (applyTask env urls) (NetworkState.FetchingImages items paths)
      = NetworkState.FetchingImages items
          (paths ++ order.filterMap (taskResult env urls)) := by
  induction order generalizing paths with
  | nil => simp
  | cons i rest ih =>
    rw [List.foldl_cons, List.filterMap_cons]
    cases h : taskResult env urls i with
    | none => rw [show applyTask env urls (NetworkState.FetchingImages items paths) i
        = NetworkState.FetchingImages items paths by simp [applyTask, h], ih]
    | some entry =>
      rw [show applyTask env urls (NetworkState.FetchingImages items paths) i
        = NetworkState.FetchingImages items (paths ++ [entry]) by
          simp [applyTask, h, recordOutcome], ih]
      simp

/-- The first element of a scan is the start state. -/
theorem self_mem_scanl {α β : Type} (f : α → β → α) (b : α) (l : List β) :
    b ∈ List.scanl f b l := by
  cases l with
  | nil => simp [List.scanl]
  | cons x xs => rw [List.scanl_cons]; exact List.mem_append_left _ (by simp)

/-- Every state in the fan-out trace started from `FetchingImages items paths`
is `FetchingImages items paths'` for some `paths'`. -/
theorem mem_taskTrace_fetching (env : Env) (urls : List (Nat × Option String))
    (items : List ItemMetadata) (order : List Nat) :
    ∀ paths st', st' ∈ taskTrace env urls (NetworkState.FetchingImages items paths) order →
      ∃ paths', st' = NetworkState.FetchingImages items paths' := by
  induction order with
  | nil =>
    intro paths st' h
    simp [taskTrace, List.scanl] at h
    exact ⟨paths, h⟩
  | cons i rest ih =>
    intro paths st' h
    rw [taskTrace, List.scanl_cons] at h
    rcases List.mem_append.mp h with h | h
    · exact ⟨paths, by simpa using h⟩
    · obtain ⟨t, ht⟩ := applyTask_fetching_append env urls items paths i
      rw [ht] at h
      exact ih (paths ++ t) st' h

/-- Inversion of a successful task entry: it exists exactly when the item had
a URL at the canonical key, the download succeeded and the write succeeded,
and it is `(i, thumbFilePath id)` for that item's id. -/
theorem taskResult_eq_some (env : Env) (urls : List (Nat × Option String))
    (i : Nat) (e : Nat × String) (h : taskResult env urls i = some e) :
    ∃ id url raw,
      urls.get? i = some (id, some url) ∧
      env.get_image url = Except.ok raw ∧
      env.write_file (thumbFilePath id) raw = true ∧
      e = (i, thumbFilePath id) := by
  unfold taskResult at h
  cases hg : urls.get? i with
  | none => rw [hg] at h; exact absurd h (by simp)
  | some p =>
    obtain ⟨id, u⟩ := p
    rw [hg] at h
    unfold taskInsertion at h
    cases u with
    | none => exact absurd h (by simp)
    | some url =>
      cases hi : env.get_image url with
      | error err =>
        simp only [hi] at h
        exact Option.noConfusion h
      | ok raw =>
        simp only [hi] at h
        by_cases hw : env.write_file (thumbFilePath id) raw = true
        · rw [if_pos hw] at h
          exact ⟨id, url, raw, rfl, hi, hw, (Option.some_inj.mp h).symm⟩
        · rw [if_neg hw] at h
          exact Option.noConfusion h

/-- The index recorded in a task's entry is the task's own index. -/
theorem taskResult_fst (env : Env) (urls : List (Nat × Option String))
    (i : Nat) (e : Nat × String) (h : taskResult env urls i = some e) : e.1 = i := by
  obtain ⟨id, url, raw, _, _, _, he⟩ := taskResult_eq_some env urls i e h
  rw [he]

/-- The indices of the collected entries form a sublist of the write order. -/
theorem map_fst_filterMap_sublist (env : Env) (urls : List (Nat × Option String)) :
    ∀ order : List Nat,
      List.Sublist ((order.filterMap (taskResult env urls)).map Prod.fst) order := by
  intro order
  induction order with
  | nil => simp
  | cons i rest ih =>
    rw [List.filterMap_cons]
    cases h : taskResult env urls i with
    | none => exact ih.cons i
    | some e =>
      rw [List.map_cons, taskResult_fst env urls i e h]
      exact ih.cons₂ i

/-- Shape of the whole run trace when the schedule fetch succeeds and the
last date bucket is present: the initial state, the fan-out trace, then
`Done` holding exactly the successful tasks' entries. -/
theorem startup_procedure_ok (env : Env) (order : List Nat) (s : Schedule)
    (items : List ItemMetadata)
    (hs : env.schedule = Except.ok s)
    (hi : (Schedule.into_item_metadata_data s).getLast? = some items) :
    startup_procedure env order
      = NetworkState.FetchingJson ::
          (taskTrace env (image_urls_of items)
              (NetworkState.FetchingImages items []) order ++
            [NetworkState.Done items
              (order.filterMap (taskResult env (image_urls_of items)))]) := by
  unfold startup_procedure
  rw [hs]
  simp only [hi]
  rw [foldl_applyTask env (image_urls_of items) order items []]
  simp [terminalTransition]

/-- The last state of such a run is the `Done` state. -/
theorem startup_procedure_ok_getLast (env : Env) (order : List Nat) (s : Schedule)
    (items : List ItemMetadata)
    (hs : env.schedule = Except.ok s)
    (hi : (Schedule.into_item_metadata_data s).getLast? = some items) :
    (startup_procedure env order).getLast?
      = some (NetworkState.Done items
          (order.filterMap (taskResult env (image_urls_of items)))) := by
  rw [startup_procedure_ok env order s items hs hi]
  show ((NetworkState.FetchingJson ::
      taskTrace env (image_urls_of items) (NetworkState.FetchingImages items []) order)
      ++ [NetworkState.Done items
        (order.filterMap (taskResult env (image_urls_of items)))]).getLast? = _
  exact List.getLast?_concat _


/-! Claim theorems. -/

/-- C6: for every per-item download task, if at the moment of recording its
outcome the shared state is no longer in the `FetchingImages` variant (e.g.
superseded by another run), the write is a no-op: the state is left unchanged
by that task. -/
theorem C6_write_noop_outside_fetching (env : Env)
    (urls : List (Nat × Option String)) (st : NetworkState) (i : Nat)
    (h : ∀ items paths, st ≠ NetworkState.FetchingImages items paths) :
    applyTask env urls st i = st := by
  unfold applyTask
  cases taskResult env urls i with
  | none => rfl
  | some entry =>
    cases st with
    | FetchingJson => rfl
    | FetchingImages items paths => exact absurd rfl (h items paths)
    | Error e => rfl
    | Done a b => rfl

/-- Witness for C6: a task write against a state reset to `FetchingJson` by a
superseding run leaves it unchanged. -/
theorem C6_witness :
    applyTask envOk (image_urls_of [itemOk]) NetworkState.FetchingJson 0
      = NetworkState.FetchingJson :=
  C6_write_noop_outside_fetching envOk (image_urls_of [itemOk])
    NetworkState.FetchingJson 0
    (fun _ _ h => NetworkState.noConfusion h)

/-- C7: for every schedule document whose date-bucket list is empty, the run
goes from `FetchingJson` directly to `Error` with the missing-metadata reason,
and no `FetchingImages` state ever occurs in the run's trace. -/
theorem C7_empty_buckets_error (env : Env) (order : List Nat) (s : Schedule)
    (hs : env.schedule = Except.ok s) (hd : s.dates = []) :
    startup_procedure env order
      = [NetworkState.FetchingJson,
         NetworkState.Error "Missing item_metadata data"]
    ∧ ∀ items paths,
        NetworkState.FetchingImages items paths ∉ startup_procedure env order := by
  have htrace : startup_procedure env order
      = [NetworkState.FetchingJson,
         NetworkState.Error "Missing item_metadata data"] := by
    unfold startup_procedure
    rw [hs]
    simp [Schedule.into_item_metadata_data, hd]
  refine ⟨htrace, ?_⟩
  intro _ _ hmem
  rw [htrace] at hmem
  simp at hmem

/-- Witness for C7: the zero-bucket schedule environment. -/
theorem C7_witness :
    startup_procedure envNoBuckets [0]
      = [NetworkState.FetchingJson,
         NetworkState.Error "Missing item_metadata data"]
    ∧ ∀ items paths,
        NetworkState.FetchingImages items paths ∉ startup_procedure envNoBuckets [0] :=
  C7_empty_buckets_error envNoBuckets [0] schedNoBuckets rfl rfl

/-- C8: for every run whose extraction yields zero items, the state trace is
exactly `FetchingJson → FetchingImages([], []) → Done([], [])`, with no
per-item task write in between. -/
theorem C8_zero_items_trace (env : Env) (s : Schedule)
    (hs : env.schedule = Except.ok s)
    (hi : (Schedule.into_item_metadata_data s).getLast? = some []) :
    startup_procedure env []
      = [NetworkState.FetchingJson,
         NetworkState.FetchingImages [] [],
         NetworkState.Done [] []] := by
  rw [startup_procedure_ok env [] s [] hs hi]
  rfl

/-- Witness for C8: a one-bucket schedule whose only game has no editorial. -/
theorem C8_witness :
    startup_procedure envZeroItems []
      = [NetworkState.FetchingJson,
         NetworkState.FetchingImages [] [],
         NetworkState.Done [] []] :=
  C8_zero_items_trace envZeroItems schedZeroItems rfl rfl

/-- C10: every entry ever inserted into the shared results is a pair
`(i, p)` where `i` is the enumeration index of an item of the run (so within
bounds), `p` is the thumbnail path formed from that item's id, and the
insertion happened only because the item's URL lookup, the download and the
file write all succeeded; items whose lookup, download or write fails
contribute no entry. -/
theorem C10_partial_results_entries (env : Env) (order : List Nat)
    (s : Schedule) (items : List ItemMetadata)
    (hs : env.schedule = Except.ok s)
    (hi : (Schedule.into_item_metadata_data s).getLast? = some items) :
    ∃ results,
      (startup_procedure env order).getLast?
        = some (NetworkState.Done items results)
      ∧ ∀ e ∈ results, ∃ it url raw,
          items.get? e.1 = some it
          ∧ List.lookup "684x385" it.photos = some url
          ∧ env.get_image url = Except.ok raw
          ∧ env.write_file (thumbFilePath it.id) raw = true
          ∧ e.2 = thumbFilePath it.id := by
  refine ⟨_, startup_procedure_ok_getLast env order s items hs hi, ?_⟩
  intro e he
  obtain ⟨i, _, hres⟩ := List.mem_filterMap.mp he
  obtain ⟨id, url, raw, hget, himg, hw, heq⟩ :=
    taskResult_eq_some env (image_urls_of items) i e hres
  rw [image_urls_of, List.get?_map] at hget
  cases hit : items.get? i with
  | none => rw [hit] at hget; exact absurd hget (by simp)
  | some it =>
    rw [hit] at hget
    have hid : it.id = id ∧ List.lookup "684x385" it.photos = some url := by
      have := Option.some_inj.mp hget
      exact ⟨congrArg Prod.fst this, congrArg Prod.snd this⟩
    refine ⟨it, url, raw, ?_, hid.2, himg, ?_, ?_⟩
    · rw [heq]; exact hit
    · rw [hid.1]; exact hw
    · rw [heq, hid.1]

/-- Witness for C10: the all-success single-item environment. -/
theorem C10_witness :
    ∃ results,
      (startup_procedure envOk [0]).getLast?
        = some (NetworkState.Done [itemOk] results)
      ∧ ∀ e ∈ results, ∃ it url raw,
          [itemOk].get? e.1 = some it
          ∧ List.lookup "684x385" it.photos = some url
          ∧ envOk.get_image url = Except.ok raw
          ∧ envOk.write_file (thumbFilePath it.id) raw = true
          ∧ e.2 = thumbFilePath it.id :=
  C10_partial_results_entries envOk [0] schedOk [itemOk] rfl rfl

/-- Counterexample to C1 as stated: with one extracted item whose photos lack
the canonical resolution key, the run still reaches `Done`, but the results
collection is empty — `len(partial_results) = 0 ≠ 1 = N`. The code records
entries only for successful downloads, not one `FetchOutcome` per item. -/
theorem C1_counterexample :
    (startup_procedure envNoKey [0]).getLast?
      = some (NetworkState.Done [itemNoKey] [])
    ∧ ([] : List (Nat × String)).length ≠ [itemNoKey].length :=
  ⟨rfl, by decide⟩

/-- C1 (amended): once fan-in completes the run reaches `Done`, whose results
hold one entry per SUCCESSFUL item only — at most `N` entries, each at an
in-range item index, rather than exactly `N`. -/
theorem C1_done_results_le_items (env : Env) (order : List Nat)
    (s : Schedule) (items : List ItemMetadata)
    (hs : env.schedule = Except.ok s)
    (hi : (Schedule.into_item_metadata_data s).getLast? = some items)
    (hperm : order.Perm (List.range items.length)) :
    ∃ results,
      (startup_procedure env order).getLast?
        = some (NetworkState.Done items results)
      ∧ results.length ≤ items.length
      ∧ ∀ e ∈ results, e.1 < items.length := by
  refine ⟨_, startup_procedure_ok_getLast env order s items hs hi, ?_, ?_⟩
  · calc (order.filterMap (taskResult env (image_urls_of items))).length
        ≤ order.length := List.length_filterMap_le _ _
      _ = (List.range items.length).length := hperm.length_eq
      _ = items.length := List.length_range _
  · intro e he
    obtain ⟨i, hmem, hres⟩ := List.mem_filterMap.mp he
    rw [taskResult_fst env (image_urls_of items) i e hres]
    exact List.mem_range.mp (hperm.mem_iff.mp hmem)

/-- Witness for C1 (amended): the all-success single-item environment with the
single-task interleaving. -/
theorem C1_witness :
    ∃ results,
      (startup_procedure envOk [0]).getLast?
        = some (NetworkState.Done [itemOk] results)
      ∧ results.length ≤ [itemOk].length
      ∧ ∀ e ∈ results, e.1 < [itemOk].length :=
  C1_done_results_le_items envOk [0] schedOk [itemOk] rfl rfl (by decide)

/-- Decidable test for the `Done` variant of `NetworkState`. -/
def isDone : NetworkState → Bool
  | NetworkState.Done _ _ => true
  | _ => false

/-- Counterexample to C5 as stated: a push onto an already-occupied index is
silently appended by `image_paths.push((i, file_path))` — no check, no error.
Index 0 is already occupied, yet the write is accepted and both entries
remain. -/
theorem C5_counterexample :
    recordOutcome (NetworkState.FetchingImages [] [(0, "a")]) (0, "b")
      = NetworkState.FetchingImages [] [(0, "a"), (0, "b")] := rfl

/-- C5 (amended): the terminal transition to `Done` happens only after every
fanned-out task has been processed — `Done` appears exactly once in the
trace, as its last state — and because each task pushes at most its own index
once, the recorded indices are pairwise distinct for a duplicate-free task
order; but an already-occupied-index write would be appended silently, not
detected. -/
theorem C5_done_last_and_distinct (env : Env) (order : List Nat)
    (s : Schedule) (items : List ItemMetadata)
    (hs : env.schedule = Except.ok s)
    (hi : (Schedule.into_item_metadata_data s).getLast? = some items) :
    ∃ results,
      (startup_procedure env order).getLast?
        = some (NetworkState.Done items results)
      ∧ (startup_procedure env order).filter isDone
          = [NetworkState.Done items results]
      ∧ (order.Nodup → (results.map Prod.fst).Nodup) := by
  refine ⟨_, startup_procedure_ok_getLast env order s items hs hi, ?_, ?_⟩
  · rw [startup_procedure_ok env order s items hs hi]
    rw [List.filter_cons, List.filter_append]
    have h1 : isDone NetworkState.FetchingJson = false := rfl
    rw [h1]
    have h2 : (taskTrace env (image_urls_of items)
        (NetworkState.FetchingImages items []) order).filter isDone = [] := by
      rw [List.filter_eq_nil_iff]
      intro st hst
      obtain ⟨paths', hp⟩ :=
        mem_taskTrace_fetching env (image_urls_of items) items order [] st hst
      rw [hp]
      simp [isDone]
    rw [h2]
    rfl
  · intro hnodup
    exact hnodup.sublist (map_fst_filterMap_sublist env (image_urls_of items) order)

/-- Witness for C5 (amended): the all-success single-item environment. -/
theorem C5_witness :
    ∃ results,
      (startup_procedure envOk [0]).getLast?
        = some (NetworkState.Done [itemOk] results)
      ∧ (startup_procedure envOk [0]).filter isDone
          = [NetworkState.Done [itemOk] results]
      ∧ ([0].Nodup → (results.map Prod.fst).Nodup) :=
  C5_done_last_and_distinct envOk [0] schedOk [itemOk] rfl rfl

/-- Counterexample to C2 as stated: for the single item whose photos lack the
canonical resolution key, no network call is issued (correct), but NO outcome
of any kind — in particular no failure("URL not found") — is recorded at its
index: the run ends in `Done` with an empty results collection. -/
theorem C2_counterexample :
    netCallsOf (startup_events true envNoKey [0]) = []
    ∧ (startup_procedure envNoKey [0]).getLast?
        = some (NetworkState.Done [itemNoKey] []) :=
  ⟨rfl, rfl⟩

/-- C2 (amended): for an item whose photos lack the canonical resolution key,
the URL computed for its task is `none`, the task performs no external effect
at all (no network call, no write), and its state write is the identity — no
outcome is recorded; the task still runs to completion inside the fan-in. -/
theorem C2_missing_key_no_call_no_record (env : Env)
    (items : List ItemMetadata) (i : Nat) (it : ItemMetadata)
    (hit : items.get? i = some it)
    (hk : List.lookup "684x385" it.photos = none) :
    (image_urls_of items).get? i = some (it.id, none)
    ∧ taskEvents env it.id none = []
    ∧ ∀ st, applyTask env (image_urls_of items) st i = st := by
  have hget : (image_urls_of items).get? i = some (it.id, none) := by
    rw [image_urls_of, List.get?_map, hit]
    simp [hk]
  refine ⟨hget, rfl, ?_⟩
  intro st
  unfold applyTask taskResult
  rw [hget]
  rfl

/-- Witness for C2 (amended): the single-item environment whose item has no
URL at the canonical resolution key. -/
theorem C2_witness :
    (image_urls_of [itemNoKey]).get? 0 = some (itemNoKey.id, none)
    ∧ taskEvents envNoKey itemNoKey.id none = []
    ∧ ∀ st, applyTask envNoKey (image_urls_of [itemNoKey]) st 0 = st :=
  C2_missing_key_no_call_no_record envNoKey [itemNoKey] 0 itemNoKey rfl rfl

/-- Counterexample to C3 as stated: in a schedule document with two date
buckets, the first bucket extracts to `[itemA]`, yet the state placed into
`FetchingImages` holds `[itemB]` — the items of the SECOND (last) bucket:
`item_metadata_data.pop()` takes the last bucket, not the first. -/
theorem C3_counterexample :
    (Schedule.into_item_metadata_data schedTwo).head? = some [itemA]
    ∧ NetworkState.FetchingImages [itemB] [] ∈ startup_procedure envTwo [0]
    ∧ itemB ≠ itemA := by
  refine ⟨rfl, ?_, by decide⟩
  have h : startup_procedure envTwo [0]
      = [NetworkState.FetchingJson,
         NetworkState.FetchingImages [itemB] [],
         NetworkState.FetchingImages [itemB] [],
         NetworkState.Done [itemB] []] := rfl
  rw [h]
  exact List.mem_cons_of_mem _ (List.mem_cons_self _ _)

/-- C3 (amended): the item sequence placed into `FetchingImages` is built from
only the LAST date bucket present in the document. -/
theorem C3_last_bucket_placed (env : Env) (order : List Nat)
    (s : Schedule) (d : DateItem)
    (hs : env.schedule = Except.ok s) (hd : s.dates.getLast? = some d) :
    NetworkState.FetchingImages (d.games.filterMap Game.toItemMetadata) []
      ∈ startup_procedure env order := by
  have hi : (Schedule.into_item_metadata_data s).getLast?
      = some (d.games.filterMap Game.toItemMetadata) := by
    unfold Schedule.into_item_metadata_data
    rw [List.getLast?_map, hd]
    rfl
  rw [startup_procedure_ok env order s _ hs hi]
  exact List.mem_cons_of_mem _
    (List.mem_append_left _ (self_mem_scanl _ _ _))

/-- Witness for C3 (amended): the two-bucket document; the placed items come
from its second (last) bucket. -/
theorem C3_witness :
    NetworkState.FetchingImages
        ((DateItem.mk [gameB]).games.filterMap Game.toItemMetadata) []
      ∈ startup_procedure envTwo [0] :=
  C3_last_bucket_placed envTwo [0] schedTwo (DateItem.mk [gameB]) rfl rfl

/-- Counterexample to C4 as stated: the UI consumer does mutate the shared
state. One frame of the main loop on a fresh graphics state, with the run
still in `FetchingImages` holding one item and one recorded entry, empties
both vectors inside the state: `GfxState::init` appends the items out of the
state and `GfxState::drain_images` drains the partial results. -/
theorem C4_counterexample :
    (uiFrameNetwork (GfxState.new 800 600)
        (NetworkState.FetchingImages [itemOk] [(0, "p")])).2
      = NetworkState.FetchingImages [] []
    ∧ ([] : List ItemMetadata) ≠ [itemOk]
    ∧ ([] : List (Nat × String)) ≠ [(0, "p")] :=
  ⟨rfl, by decide, by decide⟩

/-- C4 (amended): the ORCHESTRATOR side of the frame condition holds — a
download task's write on a `FetchingImages` state never changes the items and
only appends to the partial results (entries are never removed or
overwritten by the orchestrator); the UI consumer, however, drains both
vectors out of the shared state as it renders. -/
theorem C4_orchestrator_frame (env : Env) (urls : List (Nat × Option String))
    (items : List ItemMetadata) (paths : List (Nat × String)) (i : Nat) :
    ∃ t, applyTask env urls (NetworkState.FetchingImages items paths) i
      = NetworkState.FetchingImages items (paths ++ t) :=
  applyTask_fetching_append env urls items paths i

/-- Tasks never touch the thumbnail directory: the only `mkDir` event of a
run comes from the preamble. -/
theorem mkDir_not_mem_taskPhase (env : Env) (urls : List (Nat × Option String))
    (order : List Nat) :
    NetEvent.mkDir ∉ taskPhaseEvents env urls order := by
  intro hmem
  obtain ⟨l, hl, hml⟩ := List.mem_flatten.mp hmem
  obtain ⟨i, _, hfl⟩ := List.mem_map.mp hl
  rcases hg : urls.get? i with _ | ⟨id, u⟩
  · rw [hg] at hfl
    rw [← hfl] at hml
    exact absurd hml (List.not_mem_nil _)
  · rw [hg] at hfl
    rw [← hfl] at hml
    unfold taskEvents at hml
    cases u with
    | none => exact absurd hml (List.not_mem_nil _)
    | some url =>
      rcases List.mem_cons.mp hml with h | h
      · exact NetEvent.noConfusion h
      · cases himg : env.get_image url with
        | error e =>
          rw [himg] at h
          exact absurd h (List.not_mem_nil _)
        | ok raw =>
          rw [himg] at h
          rcases List.mem_cons.mp h with h2 | h2
          · exact NetEvent.noConfusion h2
          · exact absurd h2 (List.not_mem_nil _)

/-- Counterexample to C9 as stated: with an item whose download succeeds but
whose file write FAILS, the run performs the directory preamble, the network
call and the failed write attempt, yet records no outcome at all — in
particular no failure outcome — and still reaches `Done` with empty results.
"Persistence failure yields a failure outcome" does not hold. -/
theorem C9_counterexample :
    startup_events false envWriteFail [0]
      = [NetEvent.mkDir, NetEvent.netCall "http://img/7",
         NetEvent.fsWrite (thumbFilePath 7) false]
    ∧ (startup_procedure envWriteFail [0]).getLast?
        = some (NetworkState.Done [itemOk] []) :=
  ⟨rfl, rfl⟩

/-- C9 (amended): on download success the bytes are persisted at the path
derived deterministically from the item's id — `<thumbnail-dir>/<id>.png` —
and persistence success yields the success entry carrying that path; the
thumbnail directory is ensured (idempotently) by the preamble, before any
task write, and tasks never create it; persistence FAILURE yields no entry
at all. -/
theorem C9_persist_success_path (env : Env) (i id : Nat) (url : String)
    (raw : List Nat)
    (himg : env.get_image url = Except.ok raw)
    (hw : env.write_file (thumbFilePath id) raw = true) :
    taskInsertion env i id (some url) = some (i, thumbFilePath id)
    ∧ thumbFilePath id = "./assets/thumbnails/" ++ toString id ++ ".png"
    ∧ (∀ b, ensureThumbnailDir b = true)
    ∧ (∀ b, ensureThumbnailDir (ensureThumbnailDir b) = ensureThumbnailDir b)
    ∧ (∀ dirExists order urls2,
        NetEvent.mkDir ∉ taskPhaseEvents env urls2 order
        ∧ startup_events dirExists env order
            = ensureDirEvents dirExists ++ (startup_events dirExists env order).drop
                (ensureDirEvents dirExists).length)
    ∧ (∀ env2 i2 id2 u2 raw2,
        env2.get_image u2 = Except.ok raw2 →
        env2.write_file (thumbFilePath id2) raw2 = false →
        taskInsertion env2 i2 id2 (some u2) = none) := by
  refine ⟨?_, rfl, ?_, ?_, ?_, ?_⟩
  · simp only [taskInsertion, himg]
    rw [if_pos hw]
  · intro b; cases b <;> rfl
  · intro b; cases b <;> rfl
  · intro dirExists order urls2
    refine ⟨mkDir_not_mem_taskPhase env urls2 order, ?_⟩
    unfold startup_events
    rw [List.drop_left']
    rfl
  · intro env2 i2 id2 u2 raw2 himg2 hw2
    simp only [taskInsertion, himg2]
    simp [hw2]

/-- Witness for C9 (amended): the all-success single-item environment, task
index 0, item id 7. -/
theorem C9_witness :
    taskInsertion envOk 0 7 (some "http://img/7") = some (0, thumbFilePath 7)
    ∧ thumbFilePath 7 = "./assets/thumbnails/" ++ toString 7 ++ ".png"
    ∧ (∀ b, ensureThumbnailDir b = true)
    ∧ (∀ b, ensureThumbnailDir (ensureThumbnailDir b) = ensureThumbnailDir b)
    ∧ (∀ dirExists order urls2,
        NetEvent.mkDir ∉ taskPhaseEvents envOk urls2 order
        ∧ startup_events dirExists envOk order
            = ensureDirEvents dirExists ++ (startup_events dirExists envOk order).drop
                (ensureDirEvents dirExists).length)
    ∧ (∀ env2 i2 id2 u2 raw2,
        env2.get_image u2 = Except.ok raw2 →
        env2.write_file (thumbFilePath id2) raw2 = false →
        taskInsertion env2 i2 id2 (some u2) = none) :=
  C9_persist_success_path envOk 0 7 "http://img/7" [1, 2, 3] rfl rfl
